import Mathlib

/-!
Verification of the Discord interaction gateway (elysia-cloudflare-worker).

Shallow embedding of the core of the repository:
* `src/src/lib/discord/discordHelper.ts` — signature gate (`verifyHeaders`,
  `withDiscordInteraction`);
* `src/src/lib/discord/componentHelper.ts` — custom-id codec
  (`parseCustomId`, `buildCustomId`), field/value extraction;
* `src/src/lib/discord/loader.ts` — handler registry population;
* `src/src/routes/main.ts` — cooldown throttle (`checkCooldown`) and the
  POST /interaction dispatch pipeline.

JavaScript strings are modelled as `List Char` (`Str`), JS `Map`s as
association lists with replace-on-set semantics, `Date.now()` as a `Nat`
millisecond clock passed explicitly, and exceptions as `Except`.  Functions
whose real implementation lives outside the repository (`JSON.parse`, the
Ed25519 core of tweetnacl) are passed in as explicit parameters or oracles,
so every theorem quantifies over their behaviour unless a branch decides
the result before they are consulted.
-/

namespace Gateway

/-- JavaScript strings are modelled as lists of characters. -/
abbrev Str := List Char

/-- `lookupA m k` models `Map.prototype.get`: the value stored under `k`,
if any. -/
def lookupA {κ β : Type} [DecidableEq κ] (m : List (κ × β)) (k : κ) : Option β :=
  match m with
  | [] => none
  | (k', v) :: rest => if k' = k then some v else lookupA rest k

/-- `setA m k v` models `Map.prototype.set`: replaces the entry stored
under `k` in place, or appends a new entry when `k` is absent. -/
def setA {κ β : Type} [DecidableEq κ] (m : List (κ × β)) (k : κ) (v : β) : List (κ × β) :=
  match m with
  | [] => [(k, v)]
  | (k', v') :: rest => if k' = k then (k, v) :: rest else (k', v') :: setA rest k v

/-- The keys of an association list, in storage order. -/
def keysOf {κ β : Type} (m : List (κ × β)) : List κ :=
  m.map Prod.fst

/-- First-some choice on options; used to describe lookups after updates. -/
def orO {α : Type} (a b : Option α) : Option α :=
  match a with
  | some x => some x
  | none => b

/-- The numeric value of one hexadecimal digit, if the character is one. -/
def hexVal (c : Char) : Option Nat :=
  if '0'.toNat ≤ c.toNat ∧ c.toNat ≤ '9'.toNat then some (c.toNat - '0'.toNat)
  else if 'a'.toNat ≤ c.toNat ∧ c.toNat ≤ 'f'.toNat then some (c.toNat - 'a'.toNat + 10)
  else if 'A'.toNat ≤ c.toNat ∧ c.toNat ≤ 'F'.toNat then some (c.toNat - 'A'.toNat + 10)
  else none

/-- Models Node's `Buffer.from(s, "hex")`: decodes complete hexadecimal
byte pairs from the front of the string and truncates — never throws — at
the first invalid character or at an odd trailing digit. -/
def hexDecode : Str → List Nat
  | c1 :: c2 :: rest =>
    match hexVal c1, hexVal c2 with
    | some hi, some lo => (16 * hi + lo) :: hexDecode rest
    | _, _ => []
  | _ => []

/-- Errors thrown by tweetnacl's size checks. -/
inductive NaclError where
  | badSignatureSize
  | badPublicKeySize
deriving DecidableEq, Repr

/-- Models `nacl.sign.detached.verify` from the tweetnacl package (a
dependency, not repository code): it throws a `TypeError` when the
signature is not exactly 64 bytes or the public key not exactly 32 bytes,
and otherwise returns the boolean verdict of the Ed25519 check.  The
Ed25519 mathematics itself is abstracted as the `ed25519` oracle over the
message string and the signature/key bytes. -/
def naclSignDetachedVerify (ed25519 : Str → List Nat → List Nat → Bool)
    (msg : Str) (sig publicKey : List Nat) : Except NaclError Bool :=
  if sig.length ≠ 64 then Except.error NaclError.badSignatureSize
  else if publicKey.length ≠ 32 then Except.error NaclError.badPublicKeySize
  else Except.ok (ed25519 msg sig publicKey)

/-- Embeds `verifyHeaders` (src/src/lib/discord/discordHelper.ts, lines
31–37): concatenates timestamp and raw body, hex-decodes the signature and
public key, and calls `nacl.sign.detached.verify`.  The TypeScript adds no
error handling of its own, so tweetnacl's throws propagate as
`Except.error`. -/
def verifyHeaders (ed25519 : Str → List Nat → List Nat → Bool)
    (timestamp rawBody signature public_key : Str) : Except NaclError Bool :=
  naclSignDetachedVerify ed25519 (timestamp ++ rawBody) (hexDecode signature) (hexDecode public_key)

/-- Response bodies produced by the gateway: `{ error: msg }` objects from
the gate, the fixed ping acknowledgement `{ type: 1 }`, and interaction
response messages `{ type, data: { content, flags? } }` (which is also the
shape handler payloads take in this model). -/
inductive Body where
  | errorMsg (msg : Str)
  | pingAck
  | message (rtype : Nat) (content : Str) (flags : Option Nat)
deriving DecidableEq, Repr

/-- An HTTP response: status code plus JSON body. -/
structure HttpResponse where
  status : Nat
  body : Body
deriving DecidableEq, Repr

/-- Modelled from the spec: `respond(status, body)` (src/lib/respond.ts is
imported by every route but absent from the provided sources) builds the
HTTP response carrying the given status code and JSON body, matching
"Outbound response: JSON `{type, data?}`" with the stated status codes. -/
def respond (status : Nat) (body : Body) : HttpResponse :=
  ⟨status, body⟩

/-- One entry of `customBots` (src/src/app.ts): the per-application
configuration record. -/
structure BotConfig where
  clientId : Str
  botToken : Str
  botSecret : Str
  publicKey : Str
deriving DecidableEq, Repr

/-- One component inside a modal action row, carrying the fields
`extractModalFields` reads. -/
structure ModalComponent where
  ctype : Nat
  custom_id : Option Str
  value : Option Str
deriving DecidableEq, Repr

/-- One action row of a modal submission. -/
structure ActionRow where
  components : Option (List ModalComponent)
deriving DecidableEq, Repr

/-- The `data` field of an interaction payload; every field is optional
because the dispatcher must cope with arbitrary JSON shapes. -/
structure InteractionData where
  name : Option Str
  custom_id : Option Str
  component_type : Option Nat
  values : Option (List Str)
  components : Option (List ActionRow)
deriving DecidableEq, Repr

/-- An interaction payload as produced by `JSON.parse`: the fields the
pipeline reads, each optional.  `userId` stands for `user?.id` and
`memberUserId` for `member?.user?.id`. -/
structure Interaction where
  type : Option Nat
  application_id : Option Str
  userId : Option Str
  memberUserId : Option Str
  data : Option InteractionData
deriving DecidableEq, Repr

/-- `(interaction as any).user?.id || (interaction as any).member?.user?.id`:
JS `||` falls through on the falsy empty string as well as on `undefined`. -/
def invokingUserId (i : Interaction) : Option Str :=
  match i.userId with
  | some s => if s = [] then i.memberUserId else some s
  | none => i.memberUserId

/-- Result of the signature/parsing gate: either a terminal HTTP response
or the verified interaction together with its bot configuration. -/
inductive GateResult where
  | resp (r : HttpResponse)
  | ok (i : Interaction) (b : BotConfig)
deriving DecidableEq

def directVisitContent : Str :=
  "You cannot visit this endpoint directly, this only accepts requests from Discord.".toList

def invalidPayloadContent : Str :=
  "Invalid interaction payload.".toList

def botNotFoundContent : Str :=
  "Bot not found.".toList

def invalidSignatureContent : Str :=
  "Invalid request signature. (Request may not be from Discord)".toList

def gateExceptionContent : Str :=
  "An error occurred while processing the Discord interaction.".toList

/-- Embeds `withDiscordInteraction` (src/src/lib/discord/discordHelper.ts,
lines 77–111), preserving the order of its checks: header presence, then
`JSON.parse` (modelled by the `jsonParse` parameter, `none` standing for a
parse exception, which the surrounding `try` turns into a 500), then the
truthiness check on `type`/`application_id` (JS `!x`: absent, `0`, or the
empty string fail it), then the `customBots` config lookup, then signature
verification (whose tweetnacl throw is also caught by the `try` as a 500),
and finally the ping short-circuit. -/
def withDiscordInteraction (cfg : List (Str × BotConfig))
    (ed25519 : Str → List Nat → List Nat → Bool)
    (jsonParse : Str → Option Interaction)
    (body : Str) (sig timestamp : Option Str) : GateResult :=
  match sig, timestamp with
  | some s, some t =>
    match jsonParse body with
    | none => GateResult.resp (respond 500 (Body.errorMsg gateExceptionContent))
    | some interaction =>
      match interaction.type, interaction.application_id with
      | some ty, some appId =>
        if ty = 0 ∨ appId = [] then
          GateResult.resp (respond 400 (Body.errorMsg invalidPayloadContent))
        else
          match lookupA cfg appId with
          | none => GateResult.resp (respond 404 (Body.errorMsg botNotFoundContent))
          | some bot =>
            match verifyHeaders ed25519 t body s bot.publicKey with
            | Except.error _ => GateResult.resp (respond 500 (Body.errorMsg gateExceptionContent))
            | Except.ok false => GateResult.resp (respond 401 (Body.errorMsg invalidSignatureContent))
            | Except.ok true =>
              if ty = 1 then GateResult.resp (respond 200 Body.pingAck)
              else GateResult.ok interaction bot
      | _, _ => GateResult.resp (respond 400 (Body.errorMsg invalidPayloadContent))
  | _, _ => GateResult.resp (respond 401 (Body.errorMsg directVisitContent))

/-- Splits a character list at every occurrence of `c`, mirroring
JavaScript's `String.prototype.split(c)`: the result is never empty, and
the empty string splits to `[""]`. -/
def splitOnChar (c : Char) : Str → List Str
  | [] => [[]]
  | x :: xs =>
    match splitOnChar c xs with
    | [] => [[]]
    | h :: t => if x = c then [] :: h :: t else (x :: h) :: t

/-- Joins pieces with the separator `c`, mirroring `Array.prototype.join`. -/
def joinWith (c : Char) : List Str → Str
  | [] => []
  | [s] => s
  | s :: rest => s ++ c :: joinWith c rest

/-- Result of decoding a custom id: base id plus argument segments. -/
structure ParsedCustomId where
  id : Str
  args : List Str
deriving DecidableEq, Repr

/-- Embeds `parseCustomId` (src/src/lib/discord/componentHelper.ts, lines
34–40): splits on `:`; the first segment is the base id (`parts[0] || ''`
is the identity here because a missing first segment is already the empty
string), the rest are the arguments. -/
def parseCustomId (customId : Str) : ParsedCustomId :=
  match splitOnChar ':' customId with
  | [] => ⟨[], []⟩
  | p0 :: rest => ⟨p0, rest⟩

/-- Embeds `buildCustomId` (src/src/lib/discord/componentHelper.ts, lines
151–156): the bare base id when there are no arguments, otherwise the
colon-joined compound. -/
def buildCustomId (baseId : Str) (args : List Str) : Str :=
  match args with
  | [] => baseId
  | _ :: _ => baseId ++ ':' :: joinWith ':' args

/-- Embeds `extractSelectValues` (componentHelper.ts, lines 101–106) on the
interaction's `data` object (the dispatcher has already dereferenced it
when this runs): the `values` field, or the empty array when absent. -/
def extractSelectValues (d : InteractionData) : List Str :=
  match d.values with
  | some vs => vs
  | none => []

/-- Embeds `extractModalFields` (componentHelper.ts, lines 58–79) on the
interaction's `data` object: walks the action rows, keeps type-4 text
inputs whose `custom_id` and `value` are truthy (present and non-empty),
and stores them in an identifier-keyed map (assoc list with `Map.set`
replace semantics). -/
def extractModalFields (d : InteractionData) : List (Str × Str) :=
  match d.components with
  | none => []
  | some rows =>
    rows.foldl (fun acc row =>
      match row.components with
      | none => acc
      | some comps =>
        comps.foldl (fun acc2 comp =>
          if comp.ctype = 4 then
            match comp.custom_id, comp.value with
            | some cid, some v =>
              if cid = [] ∨ v = [] then acc2 else setA acc2 cid v
            | _, _ => acc2
          else acc2) acc) []

/-- Result of one cooldown check.  The code reports
`timeLeft = (expirationTime - now) / 1000` fractional seconds; the model
keeps the exact numerator, `timeLeftMs` milliseconds. -/
structure CooldownRes where
  onCooldown : Bool
  timeLeftMs : Nat
deriving DecidableEq, Repr

/-- Per-handler map from user id (`Map` keys may be `undefined` in JS, so
the key is an `Option Str`) to the `Date.now()` timestamp stored when the
window was stamped. -/
abbrev UserStamps := List (Option Str × Nat)

/-- The module-level `cooldowns` map of src/src/routes/main.ts, keyed by
`handlerType_handlerId`. -/
abbrev CooldownState := List (Str × UserStamps)

/-- The `` `${handlerType}_${handlerId}` `` cooldown key. -/
def cooldownKey (handlerType handlerId : Str) : Str :=
  handlerType ++ '_' :: handlerId

/-- Embeds `checkCooldown` (src/src/routes/main.ts, lines 20–48) as a pure
state transformer: the falsy guard on `cooldownSeconds` (absent or zero)
returns immediately without touching state; otherwise the per-key map is
created if missing, an unexpired stored stamp reports on-cooldown with the
remaining milliseconds, and any other case stamps `now` and reports
not-on-cooldown.  The `setTimeout` that deletes the entry after the window
is omitted: reads compare against `stored + cooldownSeconds*1000`, so an
expired entry behaves identically whether deleted or still present. -/
def checkCooldown (st : CooldownState) (handlerType handlerId : Str)
    (userId : Option Str) (cooldownSeconds : Option Nat) (now : Nat) :
    CooldownRes × CooldownState :=
  match cooldownSeconds with
  | none => (⟨false, 0⟩, st)
  | some s =>
    if s = 0 then (⟨false, 0⟩, st)
    else
      let key := cooldownKey handlerType handlerId
      let cooldownAmount := s * 1000
      let st1 := match lookupA st key with
                 | none => setA st key []
                 | some _ => st
      let timestamps := (lookupA st1 key).getD []
      match lookupA timestamps userId with
      | some stored =>
        if now < stored + cooldownAmount then
          (⟨true, stored + cooldownAmount - now⟩, st1)
        else
          (⟨false, 0⟩, setA st1 key (setA timestamps userId now))
      | none =>
        (⟨false, 0⟩, setA st1 key (setA timestamps userId now))

/-- Runs `checkCooldown` once per clock value in `nows`, threading the
state, and collects the results in order. -/
def checkCooldownRuns (handlerType handlerId : Str) (userId : Option Str)
    (cooldownSeconds : Option Nat) : CooldownState → List Nat → List CooldownRes × CooldownState
  | st, [] => ([], st)
  | st, now :: rest =>
    match checkCooldown st handlerType handlerId userId cooldownSeconds now with
    | (r, st') =>
      match checkCooldownRuns handlerType handlerId userId cooldownSeconds st' rest with
      | (rs, stf) => (r :: rs, stf)

/-- Execution signature of a command handler (`Command.execute`): it
receives the interaction and either returns a response payload or throws,
modelled as `Except` with the thrown message. -/
abbrev CommandExec := Interaction → Except Str Body

/-- Execution signature of a button handler (`Button.execute`): interaction
plus the decoded custom-id arguments. -/
abbrev ButtonExec := Interaction → List Str → Except Str Body

/-- Execution signature of a select-menu handler (`Select.execute`):
interaction plus the selected values. -/
abbrev SelectExec := Interaction → List Str → Except Str Body

/-- Execution signature of a modal handler (`Modal.execute`): interaction
plus the extracted text-input fields. -/
abbrev ModalExec := Interaction → List (Str × Str) → Except Str Body

/-- A registered handler of execution type `φ`: the optional per-handler
cooldown plus the execute function.  The four descriptor kinds of
src/src/lib/discord/loader.ts instantiate `φ`. -/
structure HandlerH (φ : Type) where
  cooldown : Option Nat
  exec : φ

/-- A raw module/manifest entry before validation: `ident` is the
`name`/`customId` property (`none` both for an absent property and for a
nullish module), and `exec` is `some` exactly when
`typeof entry.execute === 'function'`. -/
structure RawEntry (φ : Type) where
  ident : Option Str
  cooldown : Option Nat
  exec : Option φ

/-- The validation-and-insert step shared by every population strategy
(loader.ts lines 167–199 for the manifest strategy and lines 252–260,
283–291, 314–322, 349–357 for the dynamic strategy): an entry is inserted
under its identifier iff the identifier is truthy (present and non-empty)
and `execute` is a function; otherwise it is skipped. -/
def insertEntry {φ : Type} (m : List (Str × HandlerH φ)) (e : RawEntry φ) :
    List (Str × HandlerH φ) :=
  match e.ident, e.exec with
  | some n, some f => if n = [] then m else setA m n ⟨e.cooldown, f⟩
  | _, _ => m

/-- Folds `insertEntry` over a list of raw entries, in order, as the
`for … of` loops of both loading strategies do. -/
def loadEntries {φ : Type} (es : List (RawEntry φ)) (m : List (Str × HandlerH φ)) :
    List (Str × HandlerH φ) :=
  es.foldl insertEntry m

/-- The four kind-specific identifier-keyed maps of `InteractionLoader`. -/
structure Registry where
  commands : List (Str × HandlerH CommandExec)
  buttons : List (Str × HandlerH ButtonExec)
  modals : List (Str × HandlerH ModalExec)
  selects : List (Str × HandlerH SelectExec)

/-- The statically generated manifest consumed by `loadFromManifest`
(produced by an external build step, so its contents are arbitrary here). -/
structure Manifest where
  commands : List (RawEntry CommandExec)
  buttons : List (RawEntry ButtonExec)
  modals : List (RawEntry ModalExec)
  selects : List (RawEntry SelectExec)

/-- Embeds `InteractionLoader.loadFromManifest` (loader.ts lines 162–207)
running on a fresh loader (the four maps start empty, as in the class
initialisers at lines 148–151). -/
def loadFromManifest (man : Manifest) : Registry where
  commands := loadEntries man.commands []
  buttons := loadEntries man.buttons []
  modals := loadEntries man.modals []
  selects := loadEntries man.selects []

/-- `loader.getCommand` — `Map.get` on the command map. -/
def getCommand (r : Registry) (name : Str) : Option (HandlerH CommandExec) :=
  lookupA r.commands name

/-- `loader.getButton`. -/
def getButton (r : Registry) (customId : Str) : Option (HandlerH ButtonExec) :=
  lookupA r.buttons customId

/-- `loader.getModal`. -/
def getModal (r : Registry) (customId : Str) : Option (HandlerH ModalExec) :=
  lookupA r.modals customId

/-- `loader.getSelect`. -/
def getSelect (r : Registry) (customId : Str) : Option (HandlerH SelectExec) :=
  lookupA r.selects customId

def internalServerErrorContent : Str :=
  "Internal Server Error".toList

/-- JS string interpolation of a possibly-undefined value: `undefined`
prints as the string "undefined". -/
def jsString (s : Option Str) : Str :=
  match s with
  | some v => v
  | none => "undefined".toList

/-- Decimal digits of a natural number. -/
def natDigits (n : Nat) : Str :=
  (toString n).toList

/-- Renders `(ms / 1000).toFixed(1)`: the remaining time in seconds with
one decimal digit, rounding half up at the tenth of a second.  (The code
performs this in IEEE doubles; for the integral millisecond inputs that
arise the rounded value agrees with this exact rational computation.) -/
def toFixed1 (ms : Nat) : Str :=
  natDigits ((ms + 50) / 100 / 10) ++ '.' :: natDigits ((ms + 50) / 100 % 10)

/-- The throttle message of each branch: shared prefix and suffix around
the per-kind action phrase and the formatted remaining seconds. -/
def throttleContent (action : Str) (ms : Nat) : Str :=
  "⏱️ Slow down! Please wait ".toList ++ toFixed1 ms
    ++ " more seconds before ".toList ++ action ++ " again.".toList

def unknownCommandContent (name : Str) : Str :=
  "❌ Unknown command: ".toList ++ name

def commandErrorContent : Str :=
  "❌ An error occurred while executing this command.".toList

def buttonNotRecognizedContent : Str :=
  "❌ This button is not recognized by the bot anymore.".toList

def buttonErrorContent : Str :=
  "❌ An error occurred while processing this button.".toList

def selectNotRecognizedContent : Str :=
  "❌ This menu is not recognized by the bot anymore.".toList

def selectErrorContent : Str :=
  "❌ An error occurred while processing this menu.".toList

def modalNotRecognizedContent : Str :=
  "❌ This form is not recognized by the bot anymore.".toList

def modalErrorContent : Str :=
  "❌ An error occurred while processing your submission.".toList

/-- The `respond(500, { error: "Internal Server Error" })` produced by the
outer catch of the POST /interaction handler when a branch throws (for
example dereferencing a missing `data` object or splitting an `undefined`
custom id). -/
def internalErrorResponse : HttpResponse :=
  respond 500 (Body.errorMsg internalServerErrorContent)

/-- An ephemeral (`flags: 64`) channel message response, as every
synthesized branch response of main.ts is: `respond(200, { type: 4,
data: { content, flags: 64 } })`. -/
def ephemeral200 (content : Str) : HttpResponse :=
  respond 200 (Body.message 4 content (some 64))

/-- The ApplicationCommand branch of POST /interaction (main.ts lines
68–108).  A missing `data` object makes `data.name` throw, which only the
outer catch sees (500).  An unknown or unnamed command yields the 200
"Unknown command" ephemeral (interpolating `undefined` like JS does);
otherwise the cooldown gate runs, then the handler, whose throw the inner
catch converts to the generic 200 ephemeral error.  (The code binds the
cooldown result in a `const`; `checkCooldown` being pure, this model
repeats the same application instead of a `let`.) -/
def commandBranch (reg : Registry) (cool : CooldownState) (now : Nat)
    (i : Interaction) : Option HttpResponse × CooldownState :=
  match i.data with
  | none => (some internalErrorResponse, cool)
  | some d =>
    match d.name with
    | none => (some (ephemeral200 (unknownCommandContent (jsString none))), cool)
    | some n =>
      match getCommand reg n with
      | none => (some (ephemeral200 (unknownCommandContent n)), cool)
      | some cmd =>
        if (checkCooldown cool "command".toList n (invokingUserId i) cmd.cooldown now).1.onCooldown then
          (some (ephemeral200 (throttleContent "using this command".toList
              (checkCooldown cool "command".toList n (invokingUserId i) cmd.cooldown now).1.timeLeftMs)),
            (checkCooldown cool "command".toList n (invokingUserId i) cmd.cooldown now).2)
        else
          match cmd.exec i with
          | Except.ok p => (some (respond 200 p),
              (checkCooldown cool "command".toList n (invokingUserId i) cmd.cooldown now).2)
          | Except.error _ => (some (ephemeral200 commandErrorContent),
              (checkCooldown cool "command".toList n (invokingUserId i) cmd.cooldown now).2)

/-- The MessageComponent branch (main.ts lines 111–202): decode the custom
id (throwing to the outer catch when `data` or `custom_id` is missing),
then route to the button registry when `component_type` is 2 and to the
select registry otherwise, with the same not-found / throttled / invoke /
inner-catch structure as commands. -/
def componentBranch (reg : Registry) (cool : CooldownState) (now : Nat)
    (i : Interaction) : Option HttpResponse × CooldownState :=
  match i.data with
  | none => (some internalErrorResponse, cool)
  | some d =>
    match d.custom_id with
    | none => (some internalErrorResponse, cool)
    | some cid =>
      if d.component_type = some 2 then
        match getButton reg (parseCustomId cid).id with
        | none => (some (ephemeral200 buttonNotRecognizedContent), cool)
        | some btn =>
          if (checkCooldown cool "button".toList (parseCustomId cid).id (invokingUserId i) btn.cooldown now).1.onCooldown then
            (some (ephemeral200 (throttleContent "clicking this button".toList
                (checkCooldown cool "button".toList (parseCustomId cid).id (invokingUserId i) btn.cooldown now).1.timeLeftMs)),
              (checkCooldown cool "button".toList (parseCustomId cid).id (invokingUserId i) btn.cooldown now).2)
          else
            match btn.exec i (parseCustomId cid).args with
            | Except.ok pl => (some (respond 200 pl),
                (checkCooldown cool "button".toList (parseCustomId cid).id (invokingUserId i) btn.cooldown now).2)
            | Except.error _ => (some (ephemeral200 buttonErrorContent),
                (checkCooldown cool "button".toList (parseCustomId cid).id (invokingUserId i) btn.cooldown now).2)
      else
        match getSelect reg (parseCustomId cid).id with
        | none => (some (ephemeral200 selectNotRecognizedContent), cool)
        | some sel =>
          if (checkCooldown cool "select".toList (parseCustomId cid).id (invokingUserId i) sel.cooldown now).1.onCooldown then
            (some (ephemeral200 (throttleContent "using this menu".toList
                (checkCooldown cool "select".toList (parseCustomId cid).id (invokingUserId i) sel.cooldown now).1.timeLeftMs)),
              (checkCooldown cool "select".toList (parseCustomId cid).id (invokingUserId i) sel.cooldown now).2)
          else
            match sel.exec i (extractSelectValues d) with
            | Except.ok pl => (some (respond 200 pl),
                (checkCooldown cool "select".toList (parseCustomId cid).id (invokingUserId i) sel.cooldown now).2)
            | Except.error _ => (some (ephemeral200 selectErrorContent),
                (checkCooldown cool "select".toList (parseCustomId cid).id (invokingUserId i) sel.cooldown now).2)

/-- The ModalSubmit branch (main.ts lines 205–250). -/
def modalBranch (reg : Registry) (cool : CooldownState) (now : Nat)
    (i : Interaction) : Option HttpResponse × CooldownState :=
  match i.data with
  | none => (some internalErrorResponse, cool)
  | some d =>
    match d.custom_id with
    | none => (some internalErrorResponse, cool)
    | some cid =>
      match getModal reg (parseCustomId cid).id with
      | none => (some (ephemeral200 modalNotRecognizedContent), cool)
      | some m =>
        if (checkCooldown cool "modal".toList (parseCustomId cid).id (invokingUserId i) m.cooldown now).1.onCooldown then
          (some (ephemeral200 (throttleContent "submitting this form".toList
              (checkCooldown cool "modal".toList (parseCustomId cid).id (invokingUserId i) m.cooldown now).1.timeLeftMs)),
            (checkCooldown cool "modal".toList (parseCustomId cid).id (invokingUserId i) m.cooldown now).2)
        else
          match m.exec i (extractModalFields d) with
          | Except.ok pl => (some (respond 200 pl),
              (checkCooldown cool "modal".toList (parseCustomId cid).id (invokingUserId i) m.cooldown now).2)
          | Except.error _ => (some (ephemeral200 modalErrorContent),
              (checkCooldown cool "modal".toList (parseCustomId cid).id (invokingUserId i) m.cooldown now).2)

/-- Embeds the POST /interaction handler (src/src/routes/main.ts, lines
55–255): run the gate, return its response when it produced one, and
otherwise branch on the interaction type.  An interaction of any other
type (for example 4, ApplicationCommandAutocomplete) matches none of the
three `if` blocks and the handler falls off the end of the `try`,
returning `undefined` — modelled as `none`. -/
def postInteraction (cfg : List (Str × BotConfig))
    (ed25519 : Str → List Nat → List Nat → Bool)
    (jsonParse : Str → Option Interaction)
    (reg : Registry) (cool : CooldownState) (now : Nat)
    (body : Str) (sig timestamp : Option Str) :
    Option HttpResponse × CooldownState :=
  match withDiscordInteraction cfg ed25519 jsonParse body sig timestamp with
  | GateResult.resp r => (some r, cool)
  | GateResult.ok i _ =>
    if i.type = some 2 then commandBranch reg cool now i
    else if i.type = some 3 then componentBranch reg cool now i
    else if i.type = some 5 then modalBranch reg cool now i
    else (none, cool)

/-! ### Association-list lemmas -/

theorem lookupA_setA_self {κ β : Type} [DecidableEq κ] (m : List (κ × β)) (k : κ) (v : β) :
    lookupA (setA m k v) k = some v := by
  induction m with
  | nil => simp [setA, lookupA]
  | cons hd tl ih =>
    obtain ⟨k', v'⟩ := hd
    by_cases h : k' = k <;> simp [setA, lookupA, h, ih]

theorem lookupA_setA_ne {κ β : Type} [DecidableEq κ] (m : List (κ × β)) (k k' : κ) (v : β)
    (h : k' ≠ k) : lookupA (setA m k v) k' = lookupA m k' := by
  induction m with
  | nil => simp [setA, lookupA, Ne.symm h]
  | cons hd tl ih =>
    obtain ⟨k0, v0⟩ := hd
    by_cases h0 : k0 = k
    · subst h0
      simp [setA, lookupA, Ne.symm h]
    · simp [setA, lookupA, h0, ih]

theorem keysOf_setA {κ β : Type} [DecidableEq κ] (m : List (κ × β)) (k : κ) (v : β) :
    keysOf (setA m k v) = if k ∈ keysOf m then keysOf m else keysOf m ++ [k] := by
  induction m with
  | nil => simp [setA, keysOf]
  | cons hd tl ih =>
    obtain ⟨k0, v0⟩ := hd
    by_cases h0 : k0 = k
    · subst h0
      simp [setA, keysOf]
    · have hne : k ≠ k0 := fun hh => h0 hh.symm
      simp only [keysOf] at ih ⊢
      by_cases hmem : k ∈ tl.map Prod.fst
      · simp [setA, h0, hne, hmem] at ih ⊢
        exact ih
      · simp [setA, h0, hne, hmem] at ih ⊢
        exact ih

theorem nodup_keysOf_setA {κ β : Type} [DecidableEq κ] (m : List (κ × β)) (k : κ) (v : β)
    (h : (keysOf m).Nodup) : (keysOf (setA m k v)).Nodup := by
  rw [keysOf_setA]
  by_cases hmem : k ∈ keysOf m
  · simpa [hmem] using h
  · simp only [hmem, if_false]
    simpa [List.nodup_append, hmem] using h

theorem orO_none_right {α : Type} (a : Option α) : orO a none = a := by
  cases a <;> rfl

theorem orO_assoc {α : Type} (a b c : Option α) : orO (orO a b) c = orO a (orO b c) := by
  cases a <;> rfl

theorem orO_self {α : Type} (a b : Option α) : orO a (orO a b) = orO a b := by
  cases a <;> rfl

/-! ### Codec lemmas -/

theorem splitOnChar_ne_nil (c : Char) (s : Str) : splitOnChar c s ≠ [] := by
  cases s with
  | nil => simp [splitOnChar]
  | cons x xs =>
    simp only [splitOnChar]
    rcases h : splitOnChar c xs with _ | ⟨hd, tl⟩
    · simp
    · by_cases hx : x = c <;> simp [hx]

theorem splitOnChar_not_mem (c : Char) (s : Str) (h : c ∉ s) : splitOnChar c s = [s] := by
  induction s with
  | nil => rfl
  | cons x xs ih =>
    have hx : x ≠ c := fun hh => h (hh ▸ List.mem_cons_self x xs)
    have hxs : c ∉ xs := fun hh => h (List.mem_cons_of_mem x hh)
    simp [splitOnChar, ih hxs, hx]

theorem splitOnChar_append (c : Char) (s tail : Str) (h : c ∉ s) :
    splitOnChar c (s ++ c :: tail) = s :: splitOnChar c tail := by
  induction s with
  | nil =>
    simp only [List.nil_append, splitOnChar]
    rcases ht : splitOnChar c tail with _ | ⟨hd, tl⟩
    · exact absurd ht (splitOnChar_ne_nil c tail)
    · simp
  | cons x xs ih =>
    have hx : x ≠ c := fun hh => h (hh ▸ List.mem_cons_self x xs)
    have hxs : c ∉ xs := fun hh => h (List.mem_cons_of_mem x hh)
    simp only [List.cons_append, splitOnChar, List.append_eq, ih hxs, hx, if_false]

theorem splitOnChar_joinWith (c : Char) (l : List Str) (hne : l ≠ [])
    (h : ∀ s ∈ l, c ∉ s) : splitOnChar c (joinWith c l) = l := by
  induction l with
  | nil => exact absurd rfl hne
  | cons s rest ih =>
    cases rest with
    | nil =>
      simpa [joinWith] using splitOnChar_not_mem c s (h s (List.mem_cons_self s []))
    | cons s' rest' =>
      have hs : c ∉ s := h s (List.mem_cons_self s _)
      have hrest : ∀ t ∈ s' :: rest', c ∉ t := fun t ht => h t (List.mem_cons_of_mem s ht)
      have hjoin : joinWith c (s :: s' :: rest') = s ++ c :: joinWith c (s' :: rest') := rfl
      rw [hjoin, splitOnChar_append c s _ hs, ih (by simp) hrest]

/-! ### Loader lemmas -/

/-- The contribution of one raw entry to the final value stored under key
`k`: a later valid entry with identifier `k` overrides the accumulator. -/
def entryStep {φ : Type} (k : Str) (acc : Option (HandlerH φ)) (e : RawEntry φ) :
    Option (HandlerH φ) :=
  match e.ident, e.exec with
  | some n, some f => if n = [] then acc else if n = k then some ⟨e.cooldown, f⟩ else acc
  | _, _ => acc

/-- The last valid entry of `es` whose identifier is `k`, as a handler. -/
def lastInserted {φ : Type} (es : List (RawEntry φ)) (k : Str) : Option (HandlerH φ) :=
  es.foldl (entryStep k) none

theorem foldl_entryStep_init {φ : Type} (k : Str) (es : List (RawEntry φ))
    (acc : Option (HandlerH φ)) :
    es.foldl (entryStep k) acc = orO (lastInserted es k) acc := by
  induction es generalizing acc with
  | nil => simp [lastInserted, orO]
  | cons e es ih =>
    have hstep : lastInserted (e :: es) k = es.foldl (entryStep k) (entryStep k none e) := rfl
    rw [List.foldl_cons, ih, hstep, ih, orO_assoc]
    rcases e with ⟨ident, cd, exec⟩
    cases ident with
    | none => simp [entryStep, orO]
    | some n =>
      cases exec with
      | none => simp [entryStep, orO]
      | some f =>
        by_cases hn : n = []
        · simp [entryStep, hn, orO]
        · by_cases hk : n = k
          · subst hk
            simp [entryStep, hn, orO]
          · simp [entryStep, hn, hk, orO]

theorem lookupA_insertEntry {φ : Type} (m : List (Str × HandlerH φ)) (e : RawEntry φ)
    (k : Str) : lookupA (insertEntry m e) k = orO (entryStep k none e) (lookupA m k) := by
  rcases e with ⟨ident, cd, exec⟩
  cases ident with
  | none => simp [insertEntry, entryStep, orO]
  | some n =>
    cases exec with
    | none => simp [insertEntry, entryStep, orO]
    | some f =>
      by_cases hn : n = []
      · simp [insertEntry, entryStep, hn, orO]
      · by_cases hk : n = k
        · subst hk
          simp [insertEntry, entryStep, hn, orO, lookupA_setA_self]
        · simp [insertEntry, entryStep, hn, hk, orO,
            lookupA_setA_ne m n k _ (Ne.symm hk)]

theorem lookupA_loadEntries {φ : Type} (es : List (RawEntry φ)) (m : List (Str × HandlerH φ))
    (k : Str) : lookupA (loadEntries es m) k = orO (lastInserted es k) (lookupA m k) := by
  induction es generalizing m with
  | nil => simp [loadEntries, lastInserted, orO]
  | cons e es ih =>
    have h1 : loadEntries (e :: es) m = loadEntries es (insertEntry m e) := rfl
    have h2 : lastInserted (e :: es) k = orO (lastInserted es k) (entryStep k none e) := by
      have : lastInserted (e :: es) k = es.foldl (entryStep k) (entryStep k none e) := rfl
      rw [this, foldl_entryStep_init]
    rw [h1, ih, lookupA_insertEntry, h2, orO_assoc]

theorem keysOf_insertEntry_nodup {φ : Type} (m : List (Str × HandlerH φ)) (e : RawEntry φ)
    (h : (keysOf m).Nodup) : (keysOf (insertEntry m e)).Nodup := by
  rcases e with ⟨ident, cd, exec⟩
  cases ident with
  | none => simpa [insertEntry] using h
  | some n =>
    cases exec with
    | none => simpa [insertEntry] using h
    | some f =>
      by_cases hn : n = []
      · simpa [insertEntry, hn] using h
      · simpa [insertEntry, hn] using nodup_keysOf_setA m n ⟨cd, f⟩ h

theorem keysOf_loadEntries_nodup {φ : Type} (es : List (RawEntry φ))
    (m : List (Str × HandlerH φ)) (h : (keysOf m).Nodup) :
    (keysOf (loadEntries es m)).Nodup := by
  induction es generalizing m with
  | nil => simpa [loadEntries] using h
  | cons e es ih =>
    have h1 : loadEntries (e :: es) m = loadEntries es (insertEntry m e) := rfl
    rw [h1]
    exact ih _ (keysOf_insertEntry_nodup m e h)

theorem lastInserted_empty_key {φ : Type} (es : List (RawEntry φ)) :
    lastInserted es [] = none := by
  have haux : ∀ acc, es.foldl (entryStep ([] : Str)) acc = acc := by
    intro acc
    induction es generalizing acc with
    | nil => rfl
    | cons e es ih =>
      have hstep : entryStep ([] : Str) acc e = acc := by
        rcases e with ⟨ident, cd, exec⟩
        cases ident with
        | none => rfl
        | some n =>
          cases exec with
          | none => rfl
          | some f =>
            by_cases hn : n = [] <;> simp [entryStep, hn]
      rw [List.foldl_cons, hstep, ih]
  exact haux none

theorem lookupA_loadEntries_empty_key {φ : Type} (es : List (RawEntry φ)) :
    lookupA (loadEntries es []) [] = none := by
  rw [lookupA_loadEntries, lastInserted_empty_key]
  rfl

/-! ### Claim theorems: codec, cooldown, verifier, loader -/

/-- C9 (confirmed): for every base id and argument strings that contain no
colon, decoding the encoded token recovers exactly the base id and the
argument sequence in order, and encoding with no arguments returns the
bare base id. -/
theorem c9_codec_roundtrip (ident : Str) (args : List Str)
    (hid : ':' ∉ ident) (hargs : ∀ a ∈ args, ':' ∉ a) :
    parseCustomId (buildCustomId ident args) = ⟨ident, args⟩
    ∧ buildCustomId ident [] = ident := by
  refine ⟨?_, rfl⟩
  cases args with
  | nil =>
    have hsplit : splitOnChar ':' (buildCustomId ident []) = [ident] := by
      simpa [buildCustomId] using splitOnChar_not_mem ':' ident hid
    simp [parseCustomId, hsplit]
  | cons a as =>
    have hjoin : buildCustomId ident (a :: as) = ident ++ ':' :: joinWith ':' (a :: as) := rfl
    have hsplit : splitOnChar ':' (buildCustomId ident (a :: as)) = ident :: a :: as := by
      rw [hjoin, splitOnChar_append ':' ident _ hid,
        splitOnChar_joinWith ':' (a :: as) (by simp) hargs]
    simp [parseCustomId, hsplit]

/-- Witness for C9 at a concrete id and argument list. -/
theorem c9_codec_roundtrip_witness :
    parseCustomId (buildCustomId "delete".toList ["123".toList, "456".toList])
      = ⟨"delete".toList, ["123".toList, "456".toList]⟩ :=
  (c9_codec_roundtrip "delete".toList ["123".toList, "456".toList]
    (by decide) (by decide)).1

/-- C5 (confirmed): with a positive `cooldownSeconds`, a user with no
stored stamp under `(kind, identifier)`, or whose stored window has
elapsed, is reported not-on-cooldown and the new state stamps `now` (hence
the next expiry is `now + cooldownSeconds`, so a first use is never
blocked); a user whose stored window is still active is reported
on-cooldown with exactly `expiry − now` milliseconds remaining (reported
by the code as `(expiry − now)/1000` seconds) and the whole state,
including the stored stamp, is left unchanged. -/
theorem c5_cooldown_positive_window (st : CooldownState) (hT hI : Str) (u : Option Str)
    (s now : Nat) (hs : 0 < s) :
    ((lookupA ((lookupA st (cooldownKey hT hI)).getD []) u = none ∨
      ∃ st0, lookupA ((lookupA st (cooldownKey hT hI)).getD []) u = some st0 ∧
        st0 + s * 1000 ≤ now) →
      (checkCooldown st hT hI u (some s) now).1 = ⟨false, 0⟩ ∧
      lookupA ((lookupA (checkCooldown st hT hI u (some s) now).2 (cooldownKey hT hI)).getD []) u
        = some now)
    ∧ (∀ st0, lookupA ((lookupA st (cooldownKey hT hI)).getD []) u = some st0 →
        now < st0 + s * 1000 →
        (checkCooldown st hT hI u (some s) now).1 = ⟨true, st0 + s * 1000 - now⟩ ∧
        (checkCooldown st hT hI u (some s) now).2 = st) := by
  have hs' : s ≠ 0 := Nat.pos_iff_ne_zero.mp hs
  rcases hkey : lookupA st (cooldownKey hT hI) with _ | ts
  · have hres : checkCooldown st hT hI u (some s) now
        = (⟨false, 0⟩, setA (setA st (cooldownKey hT hI) []) (cooldownKey hT hI)
            (setA [] u now)) := by
      simp [checkCooldown, hs', hkey, lookupA_setA_self, lookupA, setA]
    constructor
    · intro _
      refine ⟨by rw [hres], ?_⟩
      rw [hres]
      simp [lookupA_setA_self, lookupA, setA]
    · intro st0 hst0 _
      simp [lookupA] at hst0
  · rcases hu : lookupA ts u with _ | st0
    · have hres : checkCooldown st hT hI u (some s) now
          = (⟨false, 0⟩, setA st (cooldownKey hT hI) (setA ts u now)) := by
        simp [checkCooldown, hs', hkey, hu]
      constructor
      · intro _
        refine ⟨by rw [hres], ?_⟩
        rw [hres]
        simp [lookupA_setA_self]
      · intro st1 hst1 _
        simp [hu] at hst1
    · by_cases hlt : now < st0 + s * 1000
      · have hres : checkCooldown st hT hI u (some s) now
            = (⟨true, st0 + s * 1000 - now⟩, st) := by
          simp [checkCooldown, hs', hkey, hu, hlt]
        constructor
        · rintro (hnone | ⟨st1, hst1, hle⟩)
          · simp [hu] at hnone
          · simp [hu] at hst1
            omega
        · intro st1 hst1 _
          simp [hu] at hst1
          subst hst1
          exact ⟨by rw [hres], by rw [hres]⟩
      · have hres : checkCooldown st hT hI u (some s) now
            = (⟨false, 0⟩, setA st (cooldownKey hT hI) (setA ts u now)) := by
          simp [checkCooldown, hs', hkey, hu, hlt]
        constructor
        · intro _
          refine ⟨by rw [hres], ?_⟩
          rw [hres]
          simp [lookupA_setA_self]
        · intro st1 hst1 hlt1
          simp [hu] at hst1
          subst hst1
          omega

/-- Witness for C5: on an empty cooldown state the first check with a
5-second cooldown is not on cooldown and stamps the clock. -/
theorem c5_cooldown_positive_window_witness :
    (checkCooldown [] "command".toList "greet".toList (some "u".toList) (some 5) 1000).1
      = ⟨false, 0⟩ ∧
    lookupA ((lookupA (checkCooldown [] "command".toList "greet".toList (some "u".toList)
        (some 5) 1000).2 (cooldownKey "command".toList "greet".toList)).getD [])
      (some "u".toList) = some 1000 :=
  (c5_cooldown_positive_window [] "command".toList "greet".toList (some "u".toList)
    5 1000 (by decide)).1 (Or.inl (by decide))

/-- One check with an absent or zero cooldown is a no-op reporting
not-on-cooldown. -/
theorem checkCooldown_falsy (st : CooldownState) (hT hI : Str) (u : Option Str)
    (cs : Option Nat) (hcs : cs = none ∨ cs = some 0) (now : Nat) :
    checkCooldown st hT hI u cs now = (⟨false, 0⟩, st) := by
  rcases hcs with h | h <;> subst h <;> simp [checkCooldown]

/-- C6 (confirmed): when `cooldownSeconds` is absent or zero, any number of
consecutive checks for the same user all report not-on-cooldown with zero
remaining time, and the cooldown state is left entirely unchanged. -/
theorem c6_cooldown_optout_no_state (hT hI : Str) (u : Option Str) (cs : Option Nat)
    (hcs : cs = none ∨ cs = some 0) (st : CooldownState) (nows : List Nat) :
    checkCooldownRuns hT hI u cs st nows = (nows.map fun _ => ⟨false, 0⟩, st) := by
  induction nows with
  | nil => rfl
  | cons now rest ih =>
    simp [checkCooldownRuns, checkCooldown_falsy st hT hI u cs hcs now, ih]

/-- Witness for C6: three consecutive checks with no configured cooldown. -/
theorem c6_cooldown_optout_no_state_witness :
    checkCooldownRuns "button".toList "confirm".toList (some "u".toList) none [] [1, 2, 3]
      = ([⟨false, 0⟩, ⟨false, 0⟩, ⟨false, 0⟩], []) := by
  simpa using c6_cooldown_optout_no_state "button".toList "confirm".toList
    (some "u".toList) none (Or.inl rfl) [] [1, 2, 3]

/-- C2 (code_bug): the claim — the verifier is total and returns false,
never throws, on malformed hex or wrong decoded lengths — matches
`verifyHeaders`' own doc comment ("True if the signature is valid, false
otherwise"), but not the code: the decoded bytes go straight to
`nacl.sign.detached.verify`, which throws a `TypeError` when the signature
is not 64 bytes.  Here the malformed hex signature "zz" decodes to zero
bytes and the call throws instead of returning false, whatever the
Ed25519 oracle would have answered. -/
theorem c2_verifyHeaders_throws_on_malformed_hex :
    verifyHeaders (fun _ _ _ => true) "1700000000".toList "abc".toList "zz".toList
      (List.replicate 64 '0') = Except.error NaclError.badSignatureSize := by
  rfl

/-- C8 (confirmed): registry population keeps the identifier keys
duplicate-free, repopulating from the same entry list changes no lookup
result, an entry lacking a truthy identifier or a callable execute
function is skipped, and inserting a valid entry stores it under its
identifier which then occurs exactly once among the keys. -/
theorem c8_registry_population {φ : Type} (es : List (RawEntry φ))
    (m : List (Str × HandlerH φ)) (hm : (keysOf m).Nodup) :
    (keysOf (loadEntries es m)).Nodup
    ∧ (∀ k, lookupA (loadEntries es (loadEntries es m)) k = lookupA (loadEntries es m) k)
    ∧ (∀ e : RawEntry φ, e.ident = none ∨ e.ident = some [] ∨ e.exec = none →
        insertEntry m e = m)
    ∧ (∀ n cd (f : φ), n ≠ [] →
        lookupA (insertEntry m ⟨some n, cd, some f⟩) n = some ⟨cd, f⟩
        ∧ n ∈ keysOf (insertEntry m ⟨some n, cd, some f⟩)
        ∧ (keysOf (insertEntry m ⟨some n, cd, some f⟩)).Nodup) := by
  refine ⟨keysOf_loadEntries_nodup es m hm, ?_, ?_, ?_⟩
  · intro k
    simp [lookupA_loadEntries, orO_self]
  · rintro ⟨ident, cd, ex⟩ (h | h | h) <;> simp at h
    · subst h
      cases ex <;> rfl
    · subst h
      cases ex <;> simp [insertEntry]
    · subst h
      cases ident <;> rfl
  · intro n cd f hn
    refine ⟨by simp [insertEntry, hn, lookupA_setA_self], ?_,
      keysOf_insertEntry_nodup m _ hm⟩
    simp only [insertEntry, hn, if_false, keysOf_setA]
    by_cases hmem : n ∈ keysOf m
    · simp [hmem]
    · simp [hmem]

/-- Witness for C8: a two-entry manifest with a duplicated identifier and
one invalid entry, loaded into the empty map from a fresh loader. -/
theorem c8_registry_population_witness :
    lookupA (loadEntries ([⟨some "a".toList, none, some 1⟩, ⟨none, none, none⟩] : List (RawEntry Nat))
        (loadEntries [⟨some "a".toList, none, some 1⟩, ⟨none, none, none⟩] []))
      "a".toList
    = lookupA (loadEntries ([⟨some "a".toList, none, some 1⟩, ⟨none, none, none⟩] : List (RawEntry Nat)) [])
      "a".toList :=
  (c8_registry_population [⟨some "a".toList, none, some 1⟩, ⟨none, none, none⟩] []
    (by simp [keysOf])).2.1 "a".toList

/-! ### Concrete fixtures for counterexamples and witnesses -/

/-- A 128-character all-zero hex string: decodes to a 64-byte signature. -/
def sigHex : Str := List.replicate 128 '0'

/-- A 64-character all-zero hex string: decodes to a 32-byte public key. -/
def pkHex : Str := List.replicate 64 '0'

/-- A bot configuration whose public-key hex decodes to 32 bytes. -/
def botOk : BotConfig := ⟨"A".toList, "token".toList, "secret".toList, pkHex⟩

/-- A `customBots` configuration holding exactly application id "A". -/
def cfgOk : List (Str × BotConfig) := [("A".toList, botOk)]

/-- An Ed25519 oracle under which every well-sized signature verifies. -/
def oracleTrue : Str → List Nat → List Nat → Bool := fun _ _ _ => true

/-- An Ed25519 oracle under which no signature verifies. -/
def oracleFalse : Str → List Nat → List Nat → Bool := fun _ _ _ => false

/-- The registry with no registered handlers. -/
def emptyRegistry : Registry := ⟨[], [], [], []⟩

/-- A parsed command payload naming the unconfigured application "B". -/
def unknownAppInteraction : Interaction := ⟨some 2, some "B".toList, none, none, none⟩

/-- A parsed command payload for the configured application "A". -/
def cmdInteractionA : Interaction := ⟨some 2, some "A".toList, none, none, none⟩

/-- A parsed autocomplete payload (interaction type 4) for application "A". -/
def autocompleteInteraction : Interaction := ⟨some 4, some "A".toList, none, none, none⟩

/-! ### Claim C1 -/

/-- C1 (corrected), counterexample: under an Ed25519 oracle that rejects
every signature — so this request's signature certainly does not verify —
a body naming the unconfigured application "B" is answered 404
UnknownApplication, not 401 AuthenticationFailure: the payload was parsed,
its fields read and the config lookup performed before any signature
check. -/
theorem c1_unknown_app_beats_bad_signature :
    withDiscordInteraction cfgOk oracleFalse (fun _ => some unknownAppInteraction)
      "body".toList (some sigHex) (some "1".toList)
      = GateResult.resp (respond 404 (Body.errorMsg botNotFoundContent)) := by
  rfl

/-- C1 (corrected), amended claim: the gate necessarily parses the body,
reads `type`/`application_id` and resolves the application config before
signature verification, because the public key is per-application; what
does hold is that no interaction is handed to the dispatcher — and no ping
is acknowledged — unless the headers were present and signature
verification succeeded against the resolved application's public key. -/
theorem c1_gate_verifies_before_dispatch (cfg : List (Str × BotConfig))
    (ed : Str → List Nat → List Nat → Bool) (parse : Str → Option Interaction)
    (body : Str) (sig timestamp : Option Str) :
    (∀ i b, withDiscordInteraction cfg ed parse body sig timestamp = GateResult.ok i b →
      ∃ sg t appId, sig = some sg ∧ timestamp = some t ∧
        i.application_id = some appId ∧ lookupA cfg appId = some b ∧
        verifyHeaders ed t body sg b.publicKey = Except.ok true)
    ∧ (withDiscordInteraction cfg ed parse body sig timestamp
        = GateResult.resp (respond 200 Body.pingAck) →
      ∃ sg t j b appId, sig = some sg ∧ timestamp = some t ∧ parse body = some j ∧
        j.application_id = some appId ∧ lookupA cfg appId = some b ∧
        verifyHeaders ed t body sg b.publicKey = Except.ok true) := by
  constructor
  · intro i b h
    cases sig with
    | none => simp [withDiscordInteraction] at h
    | some sg =>
      cases timestamp with
      | none => simp [withDiscordInteraction] at h
      | some t =>
        simp only [withDiscordInteraction] at h
        rcases hp : parse body with _ | j
        · simp [hp] at h
        · simp only [hp] at h
          rcases hty : j.type with _ | ty
          · simp [hty] at h
          · rcases happ : j.application_id with _ | appId
            · simp [hty, happ] at h
            · simp only [hty, happ] at h
              by_cases hz : ty = 0 ∨ appId = []
              · simp [hz] at h
              · simp only [hz, if_false] at h
                rcases hlk : lookupA cfg appId with _ | bot
                · simp [hlk] at h
                · simp only [hlk] at h
                  rcases hv : verifyHeaders ed t body sg bot.publicKey with e | bv
                  · simp [hv] at h
                  · simp only [hv] at h
                    cases bv
                    · simp at h
                    · by_cases h1 : ty = 1
                      · simp [h1] at h
                      · simp only [h1, if_false] at h
                        cases h
                        exact ⟨sg, t, appId, rfl, rfl, happ, hlk, hv⟩
  · intro h
    cases sig with
    | none => simp [withDiscordInteraction, respond] at h
    | some sg =>
      cases timestamp with
      | none => simp [withDiscordInteraction, respond] at h
      | some t =>
        simp only [withDiscordInteraction] at h
        rcases hp : parse body with _ | j
        · simp [hp, respond] at h
        · simp only [hp] at h
          rcases hty : j.type with _ | ty
          · simp [hty, respond] at h
          · rcases happ : j.application_id with _ | appId
            · simp [hty, happ, respond] at h
            · simp only [hty, happ] at h
              by_cases hz : ty = 0 ∨ appId = []
              · simp [hz, respond] at h
              · simp only [hz, if_false] at h
                rcases hlk : lookupA cfg appId with _ | bot
                · simp [hlk, respond] at h
                · simp only [hlk] at h
                  rcases hv : verifyHeaders ed t body sg bot.publicKey with e | bv
                  · simp [hv, respond] at h
                  · simp only [hv] at h
                    cases bv
                    · simp [respond] at h
                    · by_cases h1 : ty = 1
                      · exact ⟨sg, t, j, bot, appId, rfl, rfl, rfl, happ, hlk, hv⟩
                      · simp [h1] at h

/-- Witness for the amended C1: a verified request that reaches dispatch
indeed had its signature verified against the configured public key. -/
theorem c1_gate_verifies_before_dispatch_witness :
    ∃ sg t appId, (some sigHex : Option Str) = some sg
      ∧ (some "1".toList : Option Str) = some t
      ∧ cmdInteractionA.application_id = some appId
      ∧ lookupA cfgOk appId = some botOk
      ∧ verifyHeaders oracleTrue t "body".toList sg botOk.publicKey = Except.ok true :=
  (c1_gate_verifies_before_dispatch cfgOk oracleTrue (fun _ => some cmdInteractionA)
    "body".toList (some sigHex) (some "1".toList)).1 cmdInteractionA botOk (by rfl)

/-! ### Claim C3 -/

/-- The ApplicationCommand branch always produces a response. -/
theorem commandBranch_total (reg : Registry) (cool : CooldownState) (now : Nat)
    (i : Interaction) : ∃ r, (commandBranch reg cool now i).1 = some r := by
  unfold commandBranch
  repeat' split
  all_goals exact ⟨_, rfl⟩

/-- The MessageComponent branch always produces a response. -/
theorem componentBranch_total (reg : Registry) (cool : CooldownState) (now : Nat)
    (i : Interaction) : ∃ r, (componentBranch reg cool now i).1 = some r := by
  unfold componentBranch
  repeat' split
  all_goals exact ⟨_, rfl⟩

/-- The ModalSubmit branch always produces a response. -/
theorem modalBranch_total (reg : Registry) (cool : CooldownState) (now : Nat)
    (i : Interaction) : ∃ r, (modalBranch reg cool now i).1 = some r := by
  unfold modalBranch
  repeat' split
  all_goals exact ⟨_, rfl⟩

/-- C3 (corrected), counterexample: a fully verified autocomplete
interaction (type 4) matches none of the dispatcher's branches, so the
POST handler falls through and returns no response at all. -/
theorem c3_autocomplete_falls_through :
    postInteraction cfgOk oracleTrue (fun _ => some autocompleteInteraction) emptyRegistry
      [] 0 "body".toList (some sigHex) (some "1".toList) = (none, []) := by
  rfl

/-- C3 (corrected), amended claim: every request either terminates with a
well-formed response (any gate failure included — even a branch that
dereferences a missing field ends in the outer catch's 500 response), or
is a successfully verified interaction of an unhandled type, that is, one
different from ApplicationCommand (2), MessageComponent (3) and
ModalSubmit (5) — for example autocomplete (4) — in which case the handler
returns no response. -/
theorem c3_response_or_unhandled_type (cfg : List (Str × BotConfig))
    (ed : Str → List Nat → List Nat → Bool) (parse : Str → Option Interaction)
    (reg : Registry) (cool : CooldownState) (now : Nat)
    (body : Str) (sig timestamp : Option Str) :
    (∃ r, (postInteraction cfg ed parse reg cool now body sig timestamp).1 = some r)
    ∨ (∃ i b, withDiscordInteraction cfg ed parse body sig timestamp = GateResult.ok i b
        ∧ i.type ≠ some 2 ∧ i.type ≠ some 3 ∧ i.type ≠ some 5) := by
  rcases hg : withDiscordInteraction cfg ed parse body sig timestamp with r | ⟨i, b⟩
  · exact Or.inl ⟨r, by simp [postInteraction, hg]⟩
  · by_cases h2 : i.type = some 2
    · obtain ⟨r, hr⟩ := commandBranch_total reg cool now i
      refine Or.inl ⟨r, ?_⟩
      simp only [postInteraction, hg, h2, if_true]
      exact hr
    · by_cases h3 : i.type = some 3
      · obtain ⟨r, hr⟩ := componentBranch_total reg cool now i
        refine Or.inl ⟨r, ?_⟩
        simp only [postInteraction, hg, h2, h3, if_false, if_true]
        exact hr
      · by_cases h5 : i.type = some 5
        · obtain ⟨r, hr⟩ := modalBranch_total reg cool now i
          refine Or.inl ⟨r, ?_⟩
          simp only [postInteraction, hg, h2, h3, h5, if_false, if_true]
          exact hr
        · exact Or.inr ⟨i, b, rfl, h2, h3, h5⟩

/-! ### Claim C4 -/

/-- C4 (confirmed): whenever a verified interaction resolves a registered
handler, the cooldown gate passes, and the handler's execute function
throws, the dispatcher answers with HTTP 200 and the branch's fixed
generic ephemeral message.  The thrown message `e` is universally
quantified and absent from the response, so the error's content never
reaches the body, and the exception never escapes the dispatcher. -/
theorem c4_handler_exception_contained (cfg : List (Str × BotConfig))
    (ed : Str → List Nat → List Nat → Bool) (parse : Str → Option Interaction)
    (reg : Registry) (cool : CooldownState) (now : Nat)
    (body : Str) (sig timestamp : Option Str)
    (i : Interaction) (b : BotConfig) (d : InteractionData)
    (hG : withDiscordInteraction cfg ed parse body sig timestamp = GateResult.ok i b)
    (hd : i.data = some d) :
    (∀ n cmd e, i.type = some 2 → d.name = some n → getCommand reg n = some cmd →
      (checkCooldown cool "command".toList n (invokingUserId i) cmd.cooldown now).1.onCooldown = false →
      cmd.exec i = Except.error e →
      (postInteraction cfg ed parse reg cool now body sig timestamp).1
        = some (ephemeral200 commandErrorContent))
    ∧ (∀ cid btn e, i.type = some 3 → d.custom_id = some cid → d.component_type = some 2 →
      getButton reg (parseCustomId cid).id = some btn →
      (checkCooldown cool "button".toList (parseCustomId cid).id (invokingUserId i)
        btn.cooldown now).1.onCooldown = false →
      btn.exec i (parseCustomId cid).args = Except.error e →
      (postInteraction cfg ed parse reg cool now body sig timestamp).1
        = some (ephemeral200 buttonErrorContent))
    ∧ (∀ cid sel e, i.type = some 3 → d.custom_id = some cid → d.component_type ≠ some 2 →
      getSelect reg (parseCustomId cid).id = some sel →
      (checkCooldown cool "select".toList (parseCustomId cid).id (invokingUserId i)
        sel.cooldown now).1.onCooldown = false →
      sel.exec i (extractSelectValues d) = Except.error e →
      (postInteraction cfg ed parse reg cool now body sig timestamp).1
        = some (ephemeral200 selectErrorContent))
    ∧ (∀ cid m e, i.type = some 5 → d.custom_id = some cid →
      getModal reg (parseCustomId cid).id = some m →
      (checkCooldown cool "modal".toList (parseCustomId cid).id (invokingUserId i)
        m.cooldown now).1.onCooldown = false →
      m.exec i (extractModalFields d) = Except.error e →
      (postInteraction cfg ed parse reg cool now body sig timestamp).1
        = some (ephemeral200 modalErrorContent)) := by
  refine ⟨?_, ?_, ?_, ?_⟩
  · intro n cmd e hty hn hc hcool hex
    simp at hcool
    simp [postInteraction, hG, hty, commandBranch, hd, hn, hc, hcool, hex]
  · intro cid btn e hty hcid hct hbt hcool hex
    simp at hcool
    simp [postInteraction, hG, hty, componentBranch, hd, hcid, hct, hbt, hcool, hex]
  · intro cid sel e hty hcid hct hsl hcool hex
    simp at hcool
    simp [postInteraction, hG, hty, componentBranch, hd, hcid, hct, hsl, hcool, hex]
  · intro cid m e hty hcid hm hcool hex
    simp at hcool
    simp [postInteraction, hG, hty, modalBranch, hd, hcid, hm, hcool, hex]

/-- Registry holding exactly one modal handler "m" whose execute always
throws; used to witness C4. -/
def modalThrowRegistry : Registry :=
  ⟨[], [], [("m".toList, ⟨none, fun _ _ => Except.error "boom".toList⟩)], []⟩

/-- A parsed modal-submit payload for application "A" targeting modal "m". -/
def modalInteraction : Interaction :=
  ⟨some 5, some "A".toList, some "u".toList, none,
    some ⟨none, some "m".toList, none, none, none⟩⟩

/-- Witness for C4: a modal whose handler throws gets the generic 200
ephemeral modal error. -/
theorem c4_handler_exception_contained_witness :
    (postInteraction cfgOk oracleTrue (fun _ => some modalInteraction) modalThrowRegistry
      [] 0 "body".toList (some sigHex) (some "1".toList)).1
      = some (ephemeral200 modalErrorContent) :=
  (c4_handler_exception_contained cfgOk oracleTrue (fun _ => some modalInteraction)
    modalThrowRegistry [] 0 "body".toList (some sigHex) (some "1".toList)
    modalInteraction botOk ⟨none, some "m".toList, none, none, none⟩ (by rfl) rfl).2.2.2
    "m".toList ⟨none, fun _ _ => Except.error "boom".toList⟩ "boom".toList
    rfl rfl rfl rfl rfl

/-! ### Claim C7 -/

/-- C7 (confirmed): every verified interaction that reaches routing — its
kind branch entered with the routing identifier present — is answered with
HTTP status 200, whatever the registry, cooldown state and handler do; in
particular an unregistered identifier gets the branch's ephemeral
(`flags: 64`) not-recognized message, and an active cooldown gets the
ephemeral throttle message carrying the remaining time.  In the throttled
conclusions the registry and the resolved handler are universally
quantified and only the handler's `cooldown` field is consulted, so the
handler's execute function is never invoked on that path. -/
theorem c7_routed_interactions_status_200 (cfg : List (Str × BotConfig))
    (ed : Str → List Nat → List Nat → Bool) (parse : Str → Option Interaction)
    (reg : Registry) (cool : CooldownState) (now : Nat)
    (body : Str) (sig timestamp : Option Str)
    (i : Interaction) (b : BotConfig) (d : InteractionData)
    (hG : withDiscordInteraction cfg ed parse body sig timestamp = GateResult.ok i b)
    (hd : i.data = some d) :
    (∀ n, i.type = some 2 → d.name = some n →
      (∃ bdy, (postInteraction cfg ed parse reg cool now body sig timestamp).1
          = some (respond 200 bdy))
      ∧ (getCommand reg n = none →
          (postInteraction cfg ed parse reg cool now body sig timestamp).1
            = some (ephemeral200 (unknownCommandContent n)))
      ∧ (∀ cmd, getCommand reg n = some cmd →
          (checkCooldown cool "command".toList n (invokingUserId i) cmd.cooldown now).1.onCooldown = true →
          (postInteraction cfg ed parse reg cool now body sig timestamp).1
            = some (ephemeral200 (throttleContent "using this command".toList
                (checkCooldown cool "command".toList n (invokingUserId i) cmd.cooldown now).1.timeLeftMs))))
    ∧ (∀ cid, i.type = some 3 → d.custom_id = some cid →
      (∃ bdy, (postInteraction cfg ed parse reg cool now body sig timestamp).1
          = some (respond 200 bdy))
      ∧ (d.component_type = some 2 → getButton reg (parseCustomId cid).id = none →
          (postInteraction cfg ed parse reg cool now body sig timestamp).1
            = some (ephemeral200 buttonNotRecognizedContent))
      ∧ (∀ btn, d.component_type = some 2 → getButton reg (parseCustomId cid).id = some btn →
          (checkCooldown cool "button".toList (parseCustomId cid).id (invokingUserId i)
            btn.cooldown now).1.onCooldown = true →
          (postInteraction cfg ed parse reg cool now body sig timestamp).1
            = some (ephemeral200 (throttleContent "clicking this button".toList
                (checkCooldown cool "button".toList (parseCustomId cid).id (invokingUserId i)
                  btn.cooldown now).1.timeLeftMs)))
      ∧ (d.component_type ≠ some 2 → getSelect reg (parseCustomId cid).id = none →
          (postInteraction cfg ed parse reg cool now body sig timestamp).1
            = some (ephemeral200 selectNotRecognizedContent))
      ∧ (∀ sel, d.component_type ≠ some 2 → getSelect reg (parseCustomId cid).id = some sel →
          (checkCooldown cool "select".toList (parseCustomId cid).id (invokingUserId i)
            sel.cooldown now).1.onCooldown = true →
          (postInteraction cfg ed parse reg cool now body sig timestamp).1
            = some (ephemeral200 (throttleContent "using this menu".toList
                (checkCooldown cool "select".toList (parseCustomId cid).id (invokingUserId i)
                  sel.cooldown now).1.timeLeftMs))))
    ∧ (∀ cid, i.type = some 5 → d.custom_id = some cid →
      (∃ bdy, (postInteraction cfg ed parse reg cool now body sig timestamp).1
          = some (respond 200 bdy))
      ∧ (getModal reg (parseCustomId cid).id = none →
          (postInteraction cfg ed parse reg cool now body sig timestamp).1
            = some (ephemeral200 modalNotRecognizedContent))
      ∧ (∀ m, getModal reg (parseCustomId cid).id = some m →
          (checkCooldown cool "modal".toList (parseCustomId cid).id (invokingUserId i)
            m.cooldown now).1.onCooldown = true →
          (postInteraction cfg ed parse reg cool now body sig timestamp).1
            = some (ephemeral200 (throttleContent "submitting this form".toList
                (checkCooldown cool "modal".toList (parseCustomId cid).id (invokingUserId i)
                  m.cooldown now).1.timeLeftMs)))) := by
  refine ⟨?_, ?_, ?_⟩
  · intro n hty hn
    have hpost : postInteraction cfg ed parse reg cool now body sig timestamp
        = commandBranch reg cool now i := by
      simp [postInteraction, hG, hty]
    refine ⟨?_, ?_, ?_⟩
    · rcases hc : getCommand reg n with _ | cmd
      · exact ⟨Body.message 4 (unknownCommandContent n) (some 64),
          by rw [hpost]; simp [commandBranch, hd, hn, hc, ephemeral200, respond]⟩
      · cases hb : (checkCooldown cool "command".toList n (invokingUserId i) cmd.cooldown now).1.onCooldown with
        | true =>
          refine ⟨Body.message 4 (throttleContent "using this command".toList
            (checkCooldown cool "command".toList n (invokingUserId i) cmd.cooldown now).1.timeLeftMs)
            (some 64), ?_⟩
          have hb' := hb
          simp at hb'
          rw [hpost]
          simp [commandBranch, hd, hn, hc, hb', ephemeral200, respond]
        | false =>
          have hb' := hb
          simp at hb'
          rcases he : cmd.exec i with e | p
          · refine ⟨Body.message 4 commandErrorContent (some 64), ?_⟩
            rw [hpost]
            simp [commandBranch, hd, hn, hc, hb', he, ephemeral200, respond]
          · refine ⟨p, ?_⟩
            rw [hpost]
            simp [commandBranch, hd, hn, hc, hb', he, respond]
    · intro hc
      rw [hpost]
      simp [commandBranch, hd, hn, hc]
    · intro cmd hc hb
      simp at hb
      rw [hpost]
      simp [commandBranch, hd, hn, hc, hb]
  · intro cid hty hcid
    have hpost : postInteraction cfg ed parse reg cool now body sig timestamp
        = componentBranch reg cool now i := by
      simp [postInteraction, hG, hty]
    refine ⟨?_, ?_, ?_, ?_, ?_⟩
    · by_cases hct : d.component_type = some 2
      · rcases hbt : getButton reg (parseCustomId cid).id with _ | btn
        · exact ⟨Body.message 4 buttonNotRecognizedContent (some 64),
            by rw [hpost]; simp [componentBranch, hd, hcid, hct, hbt, ephemeral200, respond]⟩
        · cases hb : (checkCooldown cool "button".toList (parseCustomId cid).id
              (invokingUserId i) btn.cooldown now).1.onCooldown with
          | true =>
            refine ⟨Body.message 4 (throttleContent "clicking this button".toList
              (checkCooldown cool "button".toList (parseCustomId cid).id (invokingUserId i)
                btn.cooldown now).1.timeLeftMs) (some 64), ?_⟩
            have hb' := hb
            simp at hb'
            rw [hpost]
            simp [componentBranch, hd, hcid, hct, hbt, hb', ephemeral200, respond]
          | false =>
            have hb' := hb
            simp at hb'
            rcases he : btn.exec i (parseCustomId cid).args with e | p
            · refine ⟨Body.message 4 buttonErrorContent (some 64), ?_⟩
              rw [hpost]
              simp [componentBranch, hd, hcid, hct, hbt, hb', he, ephemeral200, respond]
            · refine ⟨p, ?_⟩
              rw [hpost]
              simp [componentBranch, hd, hcid, hct, hbt, hb', he, respond]
      · rcases hsl : getSelect reg (parseCustomId cid).id with _ | sel
        · exact ⟨Body.message 4 selectNotRecognizedContent (some 64),
            by rw [hpost]; simp [componentBranch, hd, hcid, hct, hsl, ephemeral200, respond]⟩
        · cases hb : (checkCooldown cool "select".toList (parseCustomId cid).id
              (invokingUserId i) sel.cooldown now).1.onCooldown with
          | true =>
            refine ⟨Body.message 4 (throttleContent "using this menu".toList
              (checkCooldown cool "select".toList (parseCustomId cid).id (invokingUserId i)
                sel.cooldown now).1.timeLeftMs) (some 64), ?_⟩
            have hb' := hb
            simp at hb'
            rw [hpost]
            simp [componentBranch, hd, hcid, hct, hsl, hb', ephemeral200, respond]
          | false =>
            have hb' := hb
            simp at hb'
            rcases he : sel.exec i (extractSelectValues d) with e | p
            · refine ⟨Body.message 4 selectErrorContent (some 64), ?_⟩
              rw [hpost]
              simp [componentBranch, hd, hcid, hct, hsl, hb', he, ephemeral200, respond]
            · refine ⟨p, ?_⟩
              rw [hpost]
              simp [componentBranch, hd, hcid, hct, hsl, hb', he, respond]
    · intro hct hbt
      rw [hpost]
      simp [componentBranch, hd, hcid, hct, hbt]
    · intro btn hct hbt hb
      simp at hb
      rw [hpost]
      simp [componentBranch, hd, hcid, hct, hbt, hb]
    · intro hct hsl
      rw [hpost]
      simp [componentBranch, hd, hcid, hct, hsl]
    · intro sel hct hsl hb
      simp at hb
      rw [hpost]
      simp [componentBranch, hd, hcid, hct, hsl, hb]
  · intro cid hty hcid
    have hpost : postInteraction cfg ed parse reg cool now body sig timestamp
        = modalBranch reg cool now i := by
      simp [postInteraction, hG, hty]
    refine ⟨?_, ?_, ?_⟩
    · rcases hm : getModal reg (parseCustomId cid).id with _ | m
      · exact ⟨Body.message 4 modalNotRecognizedContent (some 64),
          by rw [hpost]; simp [modalBranch, hd, hcid, hm, ephemeral200, respond]⟩
      · cases hb : (checkCooldown cool "modal".toList (parseCustomId cid).id
            (invokingUserId i) m.cooldown now).1.onCooldown with
        | true =>
          refine ⟨Body.message 4 (throttleContent "submitting this form".toList
            (checkCooldown cool "modal".toList (parseCustomId cid).id (invokingUserId i)
              m.cooldown now).1.timeLeftMs) (some 64), ?_⟩
          have hb' := hb
          simp at hb'
          rw [hpost]
          simp [modalBranch, hd, hcid, hm, hb', ephemeral200, respond]
        | false =>
          have hb' := hb
          simp at hb'
          rcases he : m.exec i (extractModalFields d) with e | p
          · refine ⟨Body.message 4 modalErrorContent (some 64), ?_⟩
            rw [hpost]
            simp [modalBranch, hd, hcid, hm, hb', he, ephemeral200, respond]
          · refine ⟨p, ?_⟩
            rw [hpost]
            simp [modalBranch, hd, hcid, hm, hb', he, respond]
    · intro hm
      rw [hpost]
      simp [modalBranch, hd, hcid, hm]
    · intro m hm hb
      simp at hb
      rw [hpost]
      simp [modalBranch, hd, hcid, hm, hb]

/-- Registry holding one command "g" with a 5-second cooldown; used to
witness C7. -/
def throttledRegistry : Registry :=
  ⟨[("g".toList, ⟨some 5, fun _ => Except.ok Body.pingAck⟩)], [], [], []⟩

/-- Cooldown state in which user "u" already used command "g" at time 0. -/
def throttledState : CooldownState :=
  [("command_g".toList, [(some "u".toList, 0)])]

/-- A parsed command payload for application "A" invoking command "g" as
user "u". -/
def cmdInteractionG : Interaction :=
  ⟨some 2, some "A".toList, some "u".toList, none,
    some ⟨some "g".toList, none, none, none, none⟩⟩

/-- Witness for C7: user "u" hitting command "g" again at time 1000, well
inside the 5-second window, gets the 200 ephemeral throttle message. -/
theorem c7_routed_interactions_status_200_witness :
    (postInteraction cfgOk oracleTrue (fun _ => some cmdInteractionG) throttledRegistry
      throttledState 1000 "body".toList (some sigHex) (some "1".toList)).1
      = some (ephemeral200 (throttleContent "using this command".toList
          (checkCooldown throttledState "command".toList "g".toList
            (invokingUserId cmdInteractionG) (some 5) 1000).1.timeLeftMs)) :=
  ((c7_routed_interactions_status_200 cfgOk oracleTrue (fun _ => some cmdInteractionG)
    throttledRegistry throttledState 1000 "body".toList (some sigHex) (some "1".toList)
    cmdInteractionG botOk ⟨some "g".toList, none, none, none, none⟩ (by rfl) rfl).1
    "g".toList rfl rfl).2.2 ⟨some 5, fun _ => Except.ok Body.pingAck⟩ rfl (by rfl)

/-! ### Claim C10 -/

/-- Decoding an empty custom id, or one that begins with a colon, yields
the empty base id. -/
theorem parseCustomId_empty_id (cid : Str)
    (h : cid = [] ∨ ∃ rest, cid = ':' :: rest) : (parseCustomId cid).id = [] := by
  rcases h with h | ⟨rest, h⟩ <;> subst h
  · rfl
  · have hne := splitOnChar_ne_nil ':' rest
    rcases hs : splitOnChar ':' rest with _ | ⟨hd, tl⟩
    · exact absurd hs hne
    · simp [parseCustomId, splitOnChar, hs]

/-- C10 (confirmed): the loaders' truthiness check rejects the empty
identifier, so every registry produced from a manifest — whatever its
contents — resolves the empty identifier to not-found in all four kinds;
consequently a verified component or modal interaction whose custom id is
empty or starts with a colon (decoding to base id "") is answered with the
branch's HandlerNotFound ephemeral response. -/
theorem c10_empty_identifier_not_found (man : Manifest)
    (cfg : List (Str × BotConfig)) (ed : Str → List Nat → List Nat → Bool)
    (parse : Str → Option Interaction) (cool : CooldownState) (now : Nat)
    (body : Str) (sig timestamp : Option Str)
    (i : Interaction) (b : BotConfig) (d : InteractionData) (cid : Str) :
    getCommand (loadFromManifest man) [] = none
    ∧ getButton (loadFromManifest man) [] = none
    ∧ getModal (loadFromManifest man) [] = none
    ∧ getSelect (loadFromManifest man) [] = none
    ∧ (withDiscordInteraction cfg ed parse body sig timestamp = GateResult.ok i b →
       i.data = some d → d.custom_id = some cid →
       (cid = [] ∨ ∃ rest, cid = ':' :: rest) →
       (i.type = some 3 → d.component_type = some 2 →
         (postInteraction cfg ed parse (loadFromManifest man) cool now body sig timestamp).1
           = some (ephemeral200 buttonNotRecognizedContent))
       ∧ (i.type = some 3 → d.component_type ≠ some 2 →
         (postInteraction cfg ed parse (loadFromManifest man) cool now body sig timestamp).1
           = some (ephemeral200 selectNotRecognizedContent))
       ∧ (i.type = some 5 →
         (postInteraction cfg ed parse (loadFromManifest man) cool now body sig timestamp).1
           = some (ephemeral200 modalNotRecognizedContent))) := by
  have hcmd : getCommand (loadFromManifest man) [] = none :=
    lookupA_loadEntries_empty_key man.commands
  have hbtn : getButton (loadFromManifest man) [] = none :=
    lookupA_loadEntries_empty_key man.buttons
  have hmod : getModal (loadFromManifest man) [] = none :=
    lookupA_loadEntries_empty_key man.modals
  have hsel : getSelect (loadFromManifest man) [] = none :=
    lookupA_loadEntries_empty_key man.selects
  refine ⟨hcmd, hbtn, hmod, hsel, ?_⟩
  intro hG hd hcid hempty
  have hid : (parseCustomId cid).id = [] := parseCustomId_empty_id cid hempty
  refine ⟨?_, ?_, ?_⟩
  · intro hty hct
    have hpost : postInteraction cfg ed parse (loadFromManifest man) cool now body sig timestamp
        = componentBranch (loadFromManifest man) cool now i := by
      simp [postInteraction, hG, hty]
    rw [hpost]
    simp [componentBranch, hd, hcid, hct, hid, hbtn]
  · intro hty hct
    have hpost : postInteraction cfg ed parse (loadFromManifest man) cool now body sig timestamp
        = componentBranch (loadFromManifest man) cool now i := by
      simp [postInteraction, hG, hty]
    rw [hpost]
    simp [componentBranch, hd, hcid, hct, hid, hsel]
  · intro hty
    have hpost : postInteraction cfg ed parse (loadFromManifest man) cool now body sig timestamp
        = modalBranch (loadFromManifest man) cool now i := by
      simp [postInteraction, hG, hty]
    rw [hpost]
    simp [modalBranch, hd, hcid, hid, hmod]

/-- A parsed button-component payload whose custom id ":x" decodes to the
empty base id. -/
def emptyIdButtonInteraction : Interaction :=
  ⟨some 3, some "A".toList, some "u".toList, none,
    some ⟨none, some ":x".toList, some 2, none, none⟩⟩

/-- Witness for C10: a verified button click whose custom id starts with a
colon resolves to the not-recognized ephemeral response, on a registry
loaded from an arbitrary concrete manifest. -/
theorem c10_empty_identifier_not_found_witness :
    (postInteraction cfgOk oracleTrue (fun _ => some emptyIdButtonInteraction)
      (loadFromManifest ⟨[], [], [], []⟩) [] 0 "body".toList
      (some sigHex) (some "1".toList)).1
      = some (ephemeral200 buttonNotRecognizedContent) :=
  ((c10_empty_identifier_not_found ⟨[], [], [], []⟩ cfgOk oracleTrue
    (fun _ => some emptyIdButtonInteraction) [] 0 "body".toList
    (some sigHex) (some "1".toList) emptyIdButtonInteraction botOk
    ⟨none, some ":x".toList, some 2, none, none⟩ ":x".toList).2.2.2.2
    (by rfl) rfl rfl (Or.inr ⟨"x".toList, rfl⟩)).1 rfl rfl

end Gateway
